import Mathlib

/-!
Shallow embedding of the cloudfront-invalidation-operator handler
(src/pkg/stub/handler.go, and the getConfig helper of the second handler
variant).  External effects (Kubernetes client construction, ConfigMap
fetch, CloudFront create/get calls, status update) are passed in as an
explicit environment; the unbounded poll loop is modelled with fuel, with
`none` meaning the loop did not terminate within the given fuel.
-/

namespace CFO

/-- Model of errors.Wrap(err, msg) from github.com/pkg/errors: the message
is `msg: err`. Errors are modelled as their message strings. -/
def wrap (msg e : String) : String := msg ++ ": " ++ e

/-- ConfigDistributionID used for looking up ConfigMap value. -/
def ConfigDistributionID : String := "cloudfront.distribution.id"

/-- ConfigCredentialID used for looking up ConfigMap value. -/
def ConfigCredentialID : String := "cloudfront.credential.id"

/-- ConfigCredentialAccess used for looking up ConfigMap value. -/
def ConfigCredentialAccess : String := "cloudfront.credential.access"

/-- StatusCompleted identifies an invalidation has been completed. -/
def StatusCompleted : String := "Completed"

/-- metav1.ObjectMeta, restricted to the fields the handler reads. -/
structure ObjectMeta where
  Namespace : String
  Name : String
  deriving DecidableEq, Repr

/-- v1alpha1.InvalidationSpec. -/
structure InvalidationSpec where
  ConfigMap : String
  Path : String
  deriving DecidableEq, Repr

/-- v1alpha1.InvalidationStatus. -/
structure InvalidationStatus where
  ID : String
  Phase : String
  deriving DecidableEq, Repr

/-- v1alpha1.Invalidation custom resource. -/
structure Invalidation where
  ObjectMeta : ObjectMeta
  Spec : InvalidationSpec
  Status : InvalidationStatus
  deriving DecidableEq, Repr

/-- corev1.ConfigMap: the Data field, a string-to-string map, modelled as
an association list (a Go map has pairwise distinct keys). -/
structure ConfigMap where
  Data : List (String × String)
  deriving DecidableEq, Repr

/-- Keys of a ConfigMap's Data are pairwise distinct, as in a Go map. -/
def ConfigMap.WellFormed (cfg : ConfigMap) : Prop :=
  cfg.Data.Pairwise (fun a b => a.1 ≠ b.1)

/-- Go map indexing `cfg.Data[k]` in its value-with-found form. -/
def mapGet (cfg : ConfigMap) (k : String) : Option String :=
  (cfg.Data.find? (fun kv => kv.1 == k)).map (fun kv => kv.2)

/-- credentials.NewStaticCredentials(id, secret, token). -/
structure Creds where
  id : String
  secret : String
  token : String
  deriving DecidableEq, Repr

/-- cloudfront.CreateInvalidationInput, flattened to the fields set by the
handler (DistributionId, CallerReference, Paths.Quantity, Paths.Items). -/
structure CreateInvalidationInput where
  DistributionId : String
  CallerReference : String
  Quantity : Int
  Items : List String
  deriving DecidableEq, Repr

/-- cloudfront.GetInvalidationInput. -/
structure GetInvalidationInput where
  DistributionId : String
  Id : String
  deriving DecidableEq, Repr

/-- The external world as seen by `invalidate`: each field models one
effectful call the handler makes.  `getInvalidation` additionally takes
the index of the poll (0-based) so stubs can answer differently per call.
`now` is the string `time.Now().String()` would produce. -/
structure Env where
  inClusterConfig : Except String Unit
  newForConfig : Except String Unit
  getConfigMap : String → String → Except String ConfigMap
  now : String
  createInvalidation : Creds → CreateInvalidationInput → Except String String
  getInvalidation : Creds → Nat → GetInvalidationInput → Except String String
  update : Invalidation → Except String Unit

/-- Record of the external calls one run of the workflow performed. -/
structure Trace where
  configMapCalls : List (String × String)
  createCalls : List (Creds × CreateInvalidationInput)
  getCalls : List (Creds × GetInvalidationInput)
  updateCalls : List Invalidation
  deriving DecidableEq, Repr

instance {ε α : Type} [DecidableEq ε] [DecidableEq α] : DecidableEq (Except ε α) := fun x y =>
  match x, y with
  | .ok a, .ok b =>
    if h : a = b then isTrue (by rw [h]) else isFalse (by simp [h])
  | .error a, .error b =>
    if h : a = b then isTrue (by rw [h]) else isFalse (by simp [h])
  | .ok _, .error _ => isFalse (by simp)
  | .error _, .ok _ => isFalse (by simp)

/-- Outcome of one (terminating) run of `invalidate`: the returned error
or success, the final state of the resource, and the call trace. -/
structure InvOutcome where
  result : Except String Unit
  cr : Invalidation
  trace : Trace
  deriving DecidableEq, Repr

/-- The `for { <-limiter; ... }` poll loop of `invalidate`
(src/pkg/stub/handler.go lines 113-132), with fuel.  Returns the loop's
result together with the list of GetInvalidation calls it made; `none`
when the fuel ran out before the loop exited.  `i` is the index of the
next poll. -/
def pollLoop (env : Env) (creds : Creds) (input : GetInvalidationInput) :
    Nat → Nat → Option (Except String Unit × List (Creds × GetInvalidationInput))
  | 0, _ => none
  | fuel + 1, i =>
    match env.getInvalidation creds i input with
    | .error e => some (.error (wrap "failed to create invalidation" e), [(creds, input)])
    | .ok status =>
      if status == StatusCompleted then
        some (.ok (), [(creds, input)])
      else
        match pollLoop env creds input fuel (i + 1) with
        | none => none
        | some (r, calls) => some (r, (creds, input) :: calls)

/-- src/pkg/stub/handler.go, `invalidate(cr *v1alpha1.Invalidation) error`.
Faithful to the source, including the assignment
`credentialAccess = ConfigCredentialAccess` (line 88), which uses the
constant key name rather than the ConfigMap value. -/
def invalidate (env : Env) (fuel : Nat) (cr : Invalidation) : Option InvOutcome :=
  match env.inClusterConfig with
  | .error e => some ⟨.error (wrap "failed to get Kubernetes config" e), cr, ⟨[], [], [], []⟩⟩
  | .ok _ =>
  match env.newForConfig with
  | .error e => some ⟨.error (wrap "failed to get Kubernetes clientset" e), cr, ⟨[], [], [], []⟩⟩
  | .ok _ =>
  let cmCall := (cr.ObjectMeta.Namespace, cr.Spec.ConfigMap)
  match env.getConfigMap cr.ObjectMeta.Namespace cr.Spec.ConfigMap with
  | .error e => some ⟨.error (wrap "failed to load ConfigMap" e), cr, ⟨[cmCall], [], [], []⟩⟩
  | .ok configMap =>
  if (mapGet configMap ConfigDistributionID).isNone then
    some ⟨.error "distribution not found, skipping", cr, ⟨[cmCall], [], [], []⟩⟩
  else if (mapGet configMap ConfigCredentialID).isNone then
    some ⟨.error "credential not found: id, skipping", cr, ⟨[cmCall], [], [], []⟩⟩
  else if (mapGet configMap ConfigCredentialAccess).isNone then
    some ⟨.error "credential not found: access, skipping", cr, ⟨[cmCall], [], [], []⟩⟩
  else
  let distribution := (mapGet configMap ConfigDistributionID).getD ""
  let credentialID := (mapGet configMap ConfigCredentialID).getD ""
  let credentialAccess := ConfigCredentialAccess
  let creds : Creds := ⟨credentialID, credentialAccess, ""⟩
  let createInput : CreateInvalidationInput := ⟨distribution, env.now, 1, [cr.Spec.Path]⟩
  match env.createInvalidation creds createInput with
  | .error e =>
    some ⟨.error (wrap "failed to create invalidation" e), cr, ⟨[cmCall], [(creds, createInput)], [], []⟩⟩
  | .ok invId =>
  match pollLoop env creds ⟨distribution, invId⟩ fuel 0 with
  | none => none
  | some (.error e, getCalls) =>
    some ⟨.error e, cr, ⟨[cmCall], [(creds, createInput)], getCalls, []⟩⟩
  | some (.ok _, getCalls) =>
    let cr2 := { cr with Status := ⟨invId, StatusCompleted⟩ }
    match env.update cr2 with
    | .error e => some ⟨.error e, cr2, ⟨[cmCall], [(creds, createInput)], getCalls, [cr2]⟩⟩
    | .ok _ => some ⟨.ok (), cr2, ⟨[cmCall], [(creds, createInput)], getCalls, [cr2]⟩⟩

/-- sdk.Event's Object field: either the Invalidation resource or some
other object type (identified only by a tag). -/
inductive EventObject where
  | invalidation (cr : Invalidation)
  | other (kind : String)
  deriving DecidableEq, Repr

/-- sdk.Event, restricted to the Object field the handler reads. -/
structure Event where
  Object : EventObject
  deriving DecidableEq, Repr

/-- src/pkg/stub/handler.go, `Handler.Handle`.  Returns the handler's
error or success, the final state of the event's object, and the trace of
external calls made. -/
def Handle (env : Env) (fuel : Nat) (event : Event) :
    Option (Except String Unit × EventObject × Trace) :=
  match event.Object with
  | .invalidation cr =>
    match invalidate env fuel cr with
    | none => none
    | some o =>
      match o.result with
      | .error e =>
        some (.error (wrap "failed to process invalidation request" e), .invalidation o.cr, o.trace)
      | .ok _ => some (.ok (), .invalidation o.cr, o.trace)
  | .other k => some (.ok (), .other k, ⟨[], [], [], []⟩)

/-- src/unnamed/part_000 lines 139-147: `getConfig`, helper function to
look up a ConfigMap value by key by ranging over the map. -/
def getConfig (want : String) (cfg : ConfigMap) : Except String String :=
  match cfg.Data.find? (fun kv => kv.1 == want) with
  | some kv => .ok kv.2
  | none => .error "not found"

/-! Concrete fixtures used by witnesses and counterexamples. -/

/-- A sample Invalidation resource. -/
def cr0 : Invalidation :=
  ⟨⟨"default", "req1"⟩, ⟨"cf-creds", "/images/star"⟩, ⟨"", ""⟩⟩

/-- A ConfigMap holding all three required keys. -/
def cmFull : ConfigMap :=
  ⟨[(ConfigDistributionID, "E123"), (ConfigCredentialID, "AKIA"),
    (ConfigCredentialAccess, "topsecret")]⟩

/-- A ConfigMap missing the credential-id key. -/
def cmNoCredId : ConfigMap :=
  ⟨[(ConfigDistributionID, "E123"), (ConfigCredentialAccess, "topsecret")]⟩

/-- Environment builder: in-cluster config and clientset succeed, the
ConfigMap fetch returns `cm`, and the CDN calls behave as given. -/
def mkEnv (cm : Except String ConfigMap)
    (create : Creds → CreateInvalidationInput → Except String String)
    (get : Creds → Nat → GetInvalidationInput → Except String String)
    (upd : Invalidation → Except String Unit) : Env :=
  ⟨.ok (), .ok (), fun _ _ => cm, "2018-06-01 10:00:00", create, get, upd⟩

/-- Environment where everything succeeds and the first poll reports
completion. -/
def envHappy : Env :=
  mkEnv (.ok cmFull) (fun _ _ => .ok "I456") (fun _ _ _ => .ok "Completed")
    (fun _ => .ok ())

/-- Environment whose ConfigMap lacks the credential-id key. -/
def envNoCredId : Env :=
  mkEnv (.ok cmNoCredId) (fun _ _ => .ok "I456") (fun _ _ _ => .ok "Completed")
    (fun _ => .ok ())

end CFO

open CFO

/-- C1: the claim says the secret passed to the CDN client equals the
ConfigMap's credential-access value.  The code instead passes the literal
key-name constant: on a ConfigMap storing "topsecret" under
cloudfront.credential.access, the one CDN client constructed carries
secret "cloudfront.credential.access", not "topsecret". -/
theorem c1_secret_is_key_constant :
    ((invalidate envHappy 1 cr0).map
        (fun o => o.trace.createCalls.map (fun c => c.1.secret)))
      = some ["cloudfront.credential.access"]
    ∧ mapGet cmFull ConfigCredentialAccess = some "topsecret"
    ∧ ("cloudfront.credential.access" : String) ≠ "topsecret" := by
  refine ⟨rfl, rfl, ?_⟩
  decide

/-- C6: handling an event whose object is not an Invalidation returns
success, performs no ConfigMap lookup and no CDN call, and leaves the
event's object unchanged. -/
theorem c6_other_objects_ignored (env : Env) (fuel : Nat) (k : String) :
    Handle env fuel ⟨.other k⟩ = some (.ok (), .other k, ⟨[], [], [], []⟩) := rfl

/-- In a list of pairs with pairwise distinct first components, `find?`
on first-component equality returns exactly the stored pair. -/
theorem find_mem_of_nodup_keys :
    ∀ (l : List (String × String)), l.Pairwise (fun a b => a.1 ≠ b.1) →
      ∀ k v, (k, v) ∈ l → l.find? (fun kv => kv.1 == k) = some (k, v) := by
  intro l
  induction l with
  | nil => intro _ k v hv; cases hv
  | cons a l ih =>
    intro hp k v hv
    rcases List.pairwise_cons.mp hp with ⟨ha, hl⟩
    cases hv with
    | head => simp [List.find?]
    | tail _ hv =>
      have hak : a.1 ≠ k := fun h => (ha (k, v) hv) (by rw [h])
      have hfalse : ((fun kv => kv.1 == k) a) = false := by
        simp [hak]
      rw [List.find?_cons_of_neg _ (by simp [hfalse]), ih hl k v hv]

/-- C8: getConfig returns exactly the stored value unmodified when the key
is present, and a "not found" failure when the key is absent; hence for
config objects holding all three required keys the extracted values equal
the stored values. -/
theorem c8_getConfig_exact (cfg : ConfigMap) (k : String) (hwf : cfg.WellFormed) :
    (∀ v, (k, v) ∈ cfg.Data → getConfig k cfg = .ok v)
    ∧ ((∀ v, (k, v) ∉ cfg.Data) → getConfig k cfg = .error "not found") := by
  constructor
  · intro v hv
    unfold getConfig
    rw [find_mem_of_nodup_keys cfg.Data hwf k v hv]
  · intro habs
    have hn : cfg.Data.find? (fun kv => kv.1 == k) = none := by
      apply List.find?_eq_none.mpr
      intro kv hkv
      cases kv with
      | mk a b =>
        simp only [beq_iff_eq]
        intro h
        exact habs b (h ▸ hkv)
    unfold getConfig
    rw [hn]

/-- The full fixture ConfigMap has pairwise distinct keys. -/
theorem cmFull_wf : cmFull.WellFormed := by
  unfold ConfigMap.WellFormed
  refine List.Pairwise.cons ?_ (List.Pairwise.cons ?_ (List.Pairwise.cons ?_ List.Pairwise.nil)) <;>
    (intro b hb; fin_cases hb <;> decide)

/-- The fixture ConfigMap stores nothing under "missing.key". -/
theorem cmFull_missing_key : ∀ v, ("missing.key", v) ∉ cmFull.Data := by
  intro v hv
  simp only [cmFull, List.mem_cons, List.not_mem_nil, or_false, Prod.mk.injEq] at hv
  rcases hv with ⟨h, _⟩ | ⟨h, _⟩ | ⟨h, _⟩ <;> exact absurd h (by decide)

/-- C8 witness: on the full fixture ConfigMap, getConfig returns the stored
credential-access value and fails with "not found" on an absent key. -/
theorem c8_getConfig_exact_witness :
    getConfig ConfigCredentialAccess cmFull = .ok "topsecret"
    ∧ getConfig "missing.key" cmFull = .error "not found" :=
  ⟨(c8_getConfig_exact cmFull ConfigCredentialAccess cmFull_wf).1 "topsecret" (by decide),
   (c8_getConfig_exact cmFull "missing.key" cmFull_wf).2 cmFull_missing_key⟩

/-- C2: when the ConfigMap loads but lacks a required key, invalidate
fails with the message for the first missing key, checked in the order
distribution id, credential id, credential access, and the trace records
no CDN create, poll, or update call. -/
theorem c2_missing_key_order (env : Env) (fuel : Nat) (cr : Invalidation)
    (cm : ConfigMap)
    (h1 : env.inClusterConfig = .ok ()) (h2 : env.newForConfig = .ok ())
    (h3 : env.getConfigMap cr.ObjectMeta.Namespace cr.Spec.ConfigMap = .ok cm) :
    (mapGet cm ConfigDistributionID = none →
      invalidate env fuel cr = some ⟨.error "distribution not found, skipping", cr,
        ⟨[(cr.ObjectMeta.Namespace, cr.Spec.ConfigMap)], [], [], []⟩⟩)
    ∧ ((mapGet cm ConfigDistributionID).isSome →
      mapGet cm ConfigCredentialID = none →
      invalidate env fuel cr = some ⟨.error "credential not found: id, skipping", cr,
        ⟨[(cr.ObjectMeta.Namespace, cr.Spec.ConfigMap)], [], [], []⟩⟩)
    ∧ ((mapGet cm ConfigDistributionID).isSome →
      (mapGet cm ConfigCredentialID).isSome →
      mapGet cm ConfigCredentialAccess = none →
      invalidate env fuel cr = some ⟨.error "credential not found: access, skipping", cr,
        ⟨[(cr.ObjectMeta.Namespace, cr.Spec.ConfigMap)], [], [], []⟩⟩) := by
  refine ⟨?_, ?_, ?_⟩
  · intro hd
    simp [invalidate, h1, h2, h3, hd]
  · intro hd hi
    obtain ⟨d, hd⟩ := Option.isSome_iff_exists.mp hd
    simp [invalidate, h1, h2, h3, hd, hi]
  · intro hd hi ha
    obtain ⟨d, hd⟩ := Option.isSome_iff_exists.mp hd
    obtain ⟨i, hi⟩ := Option.isSome_iff_exists.mp hi
    simp [invalidate, h1, h2, h3, hd, hi, ha]

/-- C2 witness: on a ConfigMap missing the credential-id key the workflow
fails naming the credential id, with no CDN call recorded. -/
theorem c2_missing_key_order_witness :
    invalidate envNoCredId 1 cr0 =
      some ⟨.error "credential not found: id, skipping", cr0,
        ⟨[("default", "cf-creds")], [], [], []⟩⟩ :=
  (c2_missing_key_order envNoCredId 1 cr0 cmNoCredId rfl rfl rfl).2.1
    (by decide) (by decide)

/-- If the stub reports a non-terminal status for `n` polls from index `i`
and the terminal status on poll `i + n`, the loop stops with the success
result after exactly `n + 1` queries, for any fuel above `n`. -/
theorem pollLoop_completes (env : Env) (creds : Creds) (input : GetInvalidationInput)
    (st : Nat → String)
    (hget : ∀ c j g, env.getInvalidation c j g = .ok (st j)) :
    ∀ n i fuel, n < fuel → (∀ j, j < n → st (i + j) ≠ StatusCompleted) →
      st (i + n) = StatusCompleted →
      ∃ calls, pollLoop env creds input fuel i = some (.ok (), calls)
        ∧ calls.length = n + 1 := by
  intro n
  induction n with
  | zero =>
    intro i fuel hf _ hc
    cases fuel with
    | zero => omega
    | succ f =>
      refine ⟨[(creds, input)], ?_, rfl⟩
      unfold pollLoop
      rw [hget creds i input]
      simp only [Nat.add_zero] at hc
      simp [hc]
  | succ n ih =>
    intro i fuel hf hne hc
    cases fuel with
    | zero => omega
    | succ f =>
      have h0 : st i ≠ StatusCompleted := by
        have h := hne 0 (Nat.succ_pos n)
        simpa using h
      have hne' : ∀ j, j < n → st (i + 1 + j) ≠ StatusCompleted := by
        intro j hj
        have h := hne (j + 1) (by omega)
        have he : i + (j + 1) = i + 1 + j := by omega
        rwa [he] at h
      have hc' : st (i + 1 + n) = StatusCompleted := by
        have he : i + 1 + n = i + (n + 1) := by omega
        rw [he]; exact hc
      obtain ⟨calls, hp, hl⟩ := ih (i + 1) f (by omega) hne' hc'
      refine ⟨(creds, input) :: calls, ?_, by simp [hl]⟩
      unfold pollLoop
      rw [hget creds i input]
      simp only [beq_iff_eq, h0, if_false, hp]

/-- If the stub never reports the terminal status (and never errors), the
loop never exits, whatever the fuel. -/
theorem pollLoop_never (env : Env) (creds : Creds) (input : GetInvalidationInput)
    (st : Nat → String)
    (hget : ∀ c j g, env.getInvalidation c j g = .ok (st j))
    (hnc : ∀ n, st n ≠ StatusCompleted) :
    ∀ fuel i, pollLoop env creds input fuel i = none := by
  intro fuel
  induction fuel with
  | zero => intro i; rfl
  | succ f ih =>
    intro i
    unfold pollLoop
    rw [hget creds i input]
    simp only [beq_iff_eq, hnc i, if_false, ih (i + 1)]

/-- C3: for every N, with a CDN stub answering "InProgress" on the first N
polls and "Completed" on poll N+1, the workflow terminates having made
exactly N+1 status queries, with success, phase Completed, and status id
equal to the id the create call returned. -/
theorem c3_poll_exactly_n_plus_one (env : Env) (N fuel : Nat) (cr : Invalidation)
    (cm : ConfigMap) (invId : String)
    (h1 : env.inClusterConfig = .ok ()) (h2 : env.newForConfig = .ok ())
    (h3 : env.getConfigMap cr.ObjectMeta.Namespace cr.Spec.ConfigMap = .ok cm)
    (hd : (mapGet cm ConfigDistributionID).isSome)
    (hi : (mapGet cm ConfigCredentialID).isSome)
    (ha : (mapGet cm ConfigCredentialAccess).isSome)
    (hcreate : ∀ c inp, env.createInvalidation c inp = .ok invId)
    (hget : ∀ c j g, env.getInvalidation c j g =
        .ok (if j < N then "InProgress" else "Completed"))
    (hupd : ∀ x, env.update x = .ok ())
    (hfuel : N < fuel) :
    (invalidate env fuel cr).map
        (fun o => (o.result, o.cr.Status, o.trace.getCalls.length))
      = some (.ok (), ⟨invId, StatusCompleted⟩, N + 1) := by
  obtain ⟨d, hd⟩ := Option.isSome_iff_exists.mp hd
  obtain ⟨ci, hi⟩ := Option.isSome_iff_exists.mp hi
  obtain ⟨ca, ha⟩ := Option.isSome_iff_exists.mp ha
  obtain ⟨calls, hp, hl⟩ := pollLoop_completes env ⟨ci, ConfigCredentialAccess, ""⟩
      ⟨d, invId⟩ (fun j => if j < N then "InProgress" else "Completed") hget
      N 0 fuel hfuel
      (fun j hj => by
        simp only [Nat.zero_add, hj, if_true]
        decide)
      (by simp [StatusCompleted])
  simp [invalidate, h1, h2, h3, hd, hi, ha, hcreate, hp, hupd, hl]

/-- CDN stub for the C3 witness: two "InProgress" answers, then
"Completed". -/
def envTwoPolls : Env :=
  mkEnv (.ok cmFull) (fun _ _ => .ok "I456")
    (fun _ j _ => .ok (if j < 2 then "InProgress" else "Completed"))
    (fun _ => .ok ())

/-- C3 witness: with N = 2 the workflow makes exactly 3 status queries and
completes with id "I456" and phase "Completed". -/
theorem c3_poll_exactly_n_plus_one_witness :
    (invalidate envTwoPolls 3 cr0).map
        (fun o => (o.result, o.cr.Status, o.trace.getCalls.length))
      = some (.ok (), ⟨"I456", StatusCompleted⟩, 2 + 1) :=
  c3_poll_exactly_n_plus_one envTwoPolls 2 3 cr0 cmFull "I456" rfl rfl rfl
    (by decide) (by decide) (by decide) (fun _ _ => rfl) (fun _ _ _ => rfl)
    (fun _ => rfl) (by decide)

/-- C9: with a never-erroring status stub, the poll loop terminates if and
only if some poll response equals the literal "Completed"; when no
response ever equals it, the loop exhausts any amount of fuel — it has no
timeout, deadline, or iteration bound. -/
theorem c9_poll_terminates_iff (env : Env) (creds : Creds)
    (input : GetInvalidationInput) (st : Nat → String)
    (hget : ∀ c j g, env.getInvalidation c j g = .ok (st j)) :
    ((∃ fuel r, pollLoop env creds input fuel 0 = some r)
        ↔ ∃ n, st n = StatusCompleted)
    ∧ ((∀ n, st n ≠ StatusCompleted) →
        ∀ fuel i, pollLoop env creds input fuel i = none) := by
  have hnever := pollLoop_never env creds input st hget
  constructor
  · constructor
    · rintro ⟨fuel, r, hr⟩
      by_contra hne
      push_neg at hne
      rw [hnever hne fuel 0] at hr
      exact Option.noConfusion hr
    · rintro ⟨n, hn⟩
      have hex : ∃ m, st m = StatusCompleted := ⟨n, hn⟩
      obtain ⟨calls, hp, _⟩ := pollLoop_completes env creds input st hget
        (Nat.find hex) 0 (Nat.find hex + 1) (by omega)
        (fun j hj => by
          have h := Nat.find_min hex hj
          simpa using h)
        (by simpa using Nat.find_spec hex)
      exact ⟨Nat.find hex + 1, _, hp⟩
  · exact hnever

/-- CDN stub for the C9 witness: the status is always "InProgress". -/
def envStuck : Env :=
  mkEnv (.ok cmFull) (fun _ _ => .ok "I456") (fun _ _ _ => .ok "InProgress")
    (fun _ => .ok ())

/-- C9 witness: against the always-"InProgress" stub the loop makes no
progress within 100 units of fuel. -/
theorem c9_poll_terminates_iff_witness :
    pollLoop envStuck ⟨"AKIA", ConfigCredentialAccess, ""⟩ ⟨"E123", "I456"⟩ 100 0
      = none :=
  (c9_poll_terminates_iff envStuck ⟨"AKIA", ConfigCredentialAccess, ""⟩
      ⟨"E123", "I456"⟩ (fun _ => "InProgress") (fun _ _ _ => rfl)).2
    (fun _ => by decide) 100 0

/-- Outcome when the in-cluster config lookup fails. -/
theorem inv_cc_err (env : Env) (fuel : Nat) (cr : Invalidation) (e : String)
    (h1 : env.inClusterConfig = .error e) :
    invalidate env fuel cr =
      some ⟨.error (wrap "failed to get Kubernetes config" e), cr, ⟨[], [], [], []⟩⟩ := by
  simp [invalidate, h1]

/-- Outcome when clientset construction fails. -/
theorem inv_cs_err (env : Env) (fuel : Nat) (cr : Invalidation) (e : String)
    (h1 : env.inClusterConfig = .ok ()) (h2 : env.newForConfig = .error e) :
    invalidate env fuel cr =
      some ⟨.error (wrap "failed to get Kubernetes clientset" e), cr, ⟨[], [], [], []⟩⟩ := by
  simp [invalidate, h1, h2]

/-- Outcome when the ConfigMap fetch fails. -/
theorem inv_cm_err (env : Env) (fuel : Nat) (cr : Invalidation) (e : String)
    (h1 : env.inClusterConfig = .ok ()) (h2 : env.newForConfig = .ok ())
    (h3 : env.getConfigMap cr.ObjectMeta.Namespace cr.Spec.ConfigMap = .error e) :
    invalidate env fuel cr =
      some ⟨.error (wrap "failed to load ConfigMap" e), cr,
        ⟨[(cr.ObjectMeta.Namespace, cr.Spec.ConfigMap)], [], [], []⟩⟩ := by
  simp [invalidate, h1, h2, h3]

/-- Outcome when the distribution-id key is missing. -/
theorem inv_missing_dist (env : Env) (fuel : Nat) (cr : Invalidation) (cm : ConfigMap)
    (h1 : env.inClusterConfig = .ok ()) (h2 : env.newForConfig = .ok ())
    (h3 : env.getConfigMap cr.ObjectMeta.Namespace cr.Spec.ConfigMap = .ok cm)
    (hd : mapGet cm ConfigDistributionID = none) :
    invalidate env fuel cr =
      some ⟨.error "distribution not found, skipping", cr,
        ⟨[(cr.ObjectMeta.Namespace, cr.Spec.ConfigMap)], [], [], []⟩⟩ := by
  simp [invalidate, h1, h2, h3, hd]

/-- Outcome when the credential-id key is missing. -/
theorem inv_missing_credid (env : Env) (fuel : Nat) (cr : Invalidation) (cm : ConfigMap)
    (d : String)
    (h1 : env.inClusterConfig = .ok ()) (h2 : env.newForConfig = .ok ())
    (h3 : env.getConfigMap cr.ObjectMeta.Namespace cr.Spec.ConfigMap = .ok cm)
    (hd : mapGet cm ConfigDistributionID = some d)
    (hi : mapGet cm ConfigCredentialID = none) :
    invalidate env fuel cr =
      some ⟨.error "credential not found: id, skipping", cr,
        ⟨[(cr.ObjectMeta.Namespace, cr.Spec.ConfigMap)], [], [], []⟩⟩ := by
  simp [invalidate, h1, h2, h3, hd, hi]

/-- Outcome when the credential-access key is missing. -/
theorem inv_missing_access (env : Env) (fuel : Nat) (cr : Invalidation) (cm : ConfigMap)
    (d ci : String)
    (h1 : env.inClusterConfig = .ok ()) (h2 : env.newForConfig = .ok ())
    (h3 : env.getConfigMap cr.ObjectMeta.Namespace cr.Spec.ConfigMap = .ok cm)
    (hd : mapGet cm ConfigDistributionID = some d)
    (hi : mapGet cm ConfigCredentialID = some ci)
    (ha : mapGet cm ConfigCredentialAccess = none) :
    invalidate env fuel cr =
      some ⟨.error "credential not found: access, skipping", cr,
        ⟨[(cr.ObjectMeta.Namespace, cr.Spec.ConfigMap)], [], [], []⟩⟩ := by
  simp [invalidate, h1, h2, h3, hd, hi, ha]

/-- Outcome when the create-invalidation call fails: error wrapped with
"failed to create invalidation", no poll, no update, resource unchanged. -/
theorem inv_create_err (env : Env) (fuel : Nat) (cr : Invalidation) (cm : ConfigMap)
    (d ci ca e : String)
    (h1 : env.inClusterConfig = .ok ()) (h2 : env.newForConfig = .ok ())
    (h3 : env.getConfigMap cr.ObjectMeta.Namespace cr.Spec.ConfigMap = .ok cm)
    (hd : mapGet cm ConfigDistributionID = some d)
    (hi : mapGet cm ConfigCredentialID = some ci)
    (ha : mapGet cm ConfigCredentialAccess = some ca)
    (hce : env.createInvalidation ⟨ci, ConfigCredentialAccess, ""⟩
        ⟨d, env.now, 1, [cr.Spec.Path]⟩ = .error e) :
    invalidate env fuel cr =
      some ⟨.error (wrap "failed to create invalidation" e), cr,
        ⟨[(cr.ObjectMeta.Namespace, cr.Spec.ConfigMap)],
         [(⟨ci, ConfigCredentialAccess, ""⟩, ⟨d, env.now, 1, [cr.Spec.Path]⟩)],
         [], []⟩⟩ := by
  simp [invalidate, h1, h2, h3, hd, hi, ha, hce]

/-- With zero fuel any run that reaches the poll loop yields `none`. -/
theorem inv_fuel0_none (env : Env) (cr : Invalidation) (cm : ConfigMap)
    (d ci ca invId : String)
    (h1 : env.inClusterConfig = .ok ()) (h2 : env.newForConfig = .ok ())
    (h3 : env.getConfigMap cr.ObjectMeta.Namespace cr.Spec.ConfigMap = .ok cm)
    (hd : mapGet cm ConfigDistributionID = some d)
    (hi : mapGet cm ConfigCredentialID = some ci)
    (ha : mapGet cm ConfigCredentialAccess = some ca)
    (hcr : env.createInvalidation ⟨ci, ConfigCredentialAccess, ""⟩
        ⟨d, env.now, 1, [cr.Spec.Path]⟩ = .ok invId) :
    invalidate env 0 cr = none := by
  simp [invalidate, pollLoop, h1, h2, h3, hd, hi, ha, hcr]

/-- Outcome when the first poll fails: one status query, error wrapped
with the create-stage message, no update, resource unchanged. -/
theorem inv_poll0_err (env : Env) (f : Nat) (cr : Invalidation) (cm : ConfigMap)
    (d ci ca invId e : String)
    (h1 : env.inClusterConfig = .ok ()) (h2 : env.newForConfig = .ok ())
    (h3 : env.getConfigMap cr.ObjectMeta.Namespace cr.Spec.ConfigMap = .ok cm)
    (hd : mapGet cm ConfigDistributionID = some d)
    (hi : mapGet cm ConfigCredentialID = some ci)
    (ha : mapGet cm ConfigCredentialAccess = some ca)
    (hcr : env.createInvalidation ⟨ci, ConfigCredentialAccess, ""⟩
        ⟨d, env.now, 1, [cr.Spec.Path]⟩ = .ok invId)
    (hg : env.getInvalidation ⟨ci, ConfigCredentialAccess, ""⟩ 0 ⟨d, invId⟩ = .error e) :
    invalidate env (f + 1) cr =
      some ⟨.error (wrap "failed to create invalidation" e), cr,
        ⟨[(cr.ObjectMeta.Namespace, cr.Spec.ConfigMap)],
         [(⟨ci, ConfigCredentialAccess, ""⟩, ⟨d, env.now, 1, [cr.Spec.Path]⟩)],
         [(⟨ci, ConfigCredentialAccess, ""⟩, ⟨d, invId⟩)], []⟩⟩ := by
  simp [invalidate, pollLoop, h1, h2, h3, hd, hi, ha, hcr, hg]

/-- Outcome when polling completes at once but the status update fails:
the error is returned as-is, with no added stage context. -/
theorem inv_update_err (env : Env) (f : Nat) (cr : Invalidation) (cm : ConfigMap)
    (d ci ca invId e : String)
    (h1 : env.inClusterConfig = .ok ()) (h2 : env.newForConfig = .ok ())
    (h3 : env.getConfigMap cr.ObjectMeta.Namespace cr.Spec.ConfigMap = .ok cm)
    (hd : mapGet cm ConfigDistributionID = some d)
    (hi : mapGet cm ConfigCredentialID = some ci)
    (ha : mapGet cm ConfigCredentialAccess = some ca)
    (hcr : env.createInvalidation ⟨ci, ConfigCredentialAccess, ""⟩
        ⟨d, env.now, 1, [cr.Spec.Path]⟩ = .ok invId)
    (hg : env.getInvalidation ⟨ci, ConfigCredentialAccess, ""⟩ 0 ⟨d, invId⟩ =
        .ok StatusCompleted)
    (hu : env.update { cr with Status := ⟨invId, StatusCompleted⟩ } = .error e) :
    invalidate env (f + 1) cr =
      some ⟨.error e, { cr with Status := ⟨invId, StatusCompleted⟩ },
        ⟨[(cr.ObjectMeta.Namespace, cr.Spec.ConfigMap)],
         [(⟨ci, ConfigCredentialAccess, ""⟩, ⟨d, env.now, 1, [cr.Spec.Path]⟩)],
         [(⟨ci, ConfigCredentialAccess, ""⟩, ⟨d, invId⟩)],
         [{ cr with Status := ⟨invId, StatusCompleted⟩ }]⟩⟩ := by
  simp only [StatusCompleted] at hu
  simp [invalidate, pollLoop, StatusCompleted, h1, h2, h3, hd, hi, ha, hcr, hg, hu]

/-- If the loop exits successfully, some poll answered exactly the
terminal status. -/
theorem pollLoop_ok_completed (env : Env) (creds : Creds)
    (input : GetInvalidationInput) :
    ∀ fuel i calls, pollLoop env creds input fuel i = some (.ok (), calls) →
      ∃ j, env.getInvalidation creds j input = .ok StatusCompleted := by
  intro fuel
  induction fuel with
  | zero => intro i calls h; exact Option.noConfusion h
  | succ f ih =>
    intro i calls h
    unfold pollLoop at h
    cases hg : env.getInvalidation creds i input with
    | error e =>
      simp only [hg] at h
      simp at h
    | ok status =>
      simp only [hg] at h
      by_cases hs : (status == StatusCompleted) = true
      · have hsc : status = StatusCompleted := by simpa [beq_iff_eq] using hs
        exact ⟨i, by rw [hg, hsc]⟩
      · rw [if_neg hs] at h
        cases hp : pollLoop env creds input f (i + 1) with
        | none =>
          simp only [hp] at h
          exact Option.noConfusion h
        | some rc =>
          obtain ⟨r, calls'⟩ := rc
          simp only [hp, Option.some.injEq, Prod.mk.injEq] at h
          obtain ⟨hr, _⟩ := h
          rw [hr] at hp
          exact ih (i + 1) calls' hp

/-- Every terminating run of `invalidate` performs at most one status
update; when it performs none the resource is returned unchanged, and
when it performs one, some poll answered the terminal status. -/
theorem invalidate_update_shape (env : Env) (fuel : Nat) (cr : Invalidation)
    (o : InvOutcome) (h : invalidate env fuel cr = some o) :
    o.trace.updateCalls.length ≤ 1
    ∧ (o.trace.updateCalls = [] → o.cr = cr)
    ∧ (o.trace.updateCalls ≠ [] →
        ∃ c j g, env.getInvalidation c j g = .ok StatusCompleted) := by
  cases hcc : env.inClusterConfig with
  | error e =>
    simp only [invalidate, hcc, Option.some.injEq] at h
    subst h
    simp
  | ok u =>
    cases hnc : env.newForConfig with
    | error e =>
      simp only [invalidate, hcc, hnc, Option.some.injEq] at h
      subst h
      simp
    | ok u2 =>
      cases hcm : env.getConfigMap cr.ObjectMeta.Namespace cr.Spec.ConfigMap with
      | error e =>
        simp only [invalidate, hcc, hnc, hcm, Option.some.injEq] at h
        subst h
        simp
      | ok cm =>
        by_cases hd : (mapGet cm ConfigDistributionID).isNone = true
        · simp only [invalidate, hcc, hnc, hcm, hd, if_true, Option.some.injEq] at h
          subst h
          simp
        · by_cases hi : (mapGet cm ConfigCredentialID).isNone = true
          · simp only [invalidate, hcc, hnc, hcm, hd, hi, if_true, if_false,
              Bool.false_eq_true, Option.some.injEq] at h
            subst h
            simp
          · by_cases ha : (mapGet cm ConfigCredentialAccess).isNone = true
            · simp only [invalidate, hcc, hnc, hcm, hd, hi, ha, if_true, if_false,
                Bool.false_eq_true, Option.some.injEq] at h
              subst h
              simp
            · simp only [invalidate, hcc, hnc, hcm, hd, hi, ha, if_false,
                Bool.false_eq_true, Option.some.injEq] at h
              cases hcr : env.createInvalidation
                  ⟨(mapGet cm ConfigCredentialID).getD "", ConfigCredentialAccess, ""⟩
                  ⟨(mapGet cm ConfigDistributionID).getD "", env.now, 1, [cr.Spec.Path]⟩ with
              | error e =>
                simp only [hcr, Option.some.injEq] at h
                subst h
                simp
              | ok invId =>
                simp only [hcr] at h
                cases hp : pollLoop env
                    ⟨(mapGet cm ConfigCredentialID).getD "", ConfigCredentialAccess, ""⟩
                    ⟨(mapGet cm ConfigDistributionID).getD "", invId⟩ fuel 0 with
                | none =>
                  simp only [hp] at h
                  exact Option.noConfusion h
                | some rc =>
                  obtain ⟨r, getCalls⟩ := rc
                  simp only [hp] at h
                  cases r with
                  | error e =>
                    simp only [Option.some.injEq] at h
                    subst h
                    simp
                  | ok u3 =>
                    cases hu : env.update { cr with Status := ⟨invId, StatusCompleted⟩ } with
                    | error e =>
                      simp only [hu, Option.some.injEq] at h
                      subst h
                      refine ⟨by simp, by simp, fun _ => ?_⟩
                      obtain ⟨j, hj⟩ := pollLoop_ok_completed env _ _ fuel 0 getCalls hp
                      exact ⟨_, j, _, hj⟩
                    | ok u4 =>
                      simp only [hu, Option.some.injEq] at h
                      subst h
                      refine ⟨by simp, by simp, fun _ => ?_⟩
                      obtain ⟨j, hj⟩ := pollLoop_ok_completed env _ _ fuel 0 getCalls hp
                      exact ⟨_, j, _, hj⟩

/-- C4: the resource status is written at most once per invocation and
only after a poll answered "Completed"; each listed failure path (cluster
config, ConfigMap load, missing key, create, first poll) returns an error
with the resource unchanged and no status write; a create failure means
the poll loop is never entered, and a first-poll failure means exactly
one poll and no more. -/
theorem c4_status_write_once (env : Env) (fuel : Nat) (cr : Invalidation)
    (o : InvOutcome) (h : invalidate env fuel cr = some o) :
    o.trace.updateCalls.length ≤ 1
    ∧ (o.trace.updateCalls = [] → o.cr = cr)
    ∧ (o.trace.updateCalls ≠ [] →
        ∃ c j g, env.getInvalidation c j g = .ok StatusCompleted)
    ∧ (∀ e, env.inClusterConfig = .error e →
        o.cr = cr ∧ o.trace.updateCalls = [] ∧ ∃ e2, o.result = .error e2)
    ∧ (∀ e, env.inClusterConfig = .ok () → env.newForConfig = .error e →
        o.cr = cr ∧ o.trace.updateCalls = [] ∧ ∃ e2, o.result = .error e2)
    ∧ (∀ e, env.inClusterConfig = .ok () → env.newForConfig = .ok () →
        env.getConfigMap cr.ObjectMeta.Namespace cr.Spec.ConfigMap = .error e →
        o.cr = cr ∧ o.trace.updateCalls = [] ∧ ∃ e2, o.result = .error e2)
    ∧ (∀ cm, env.inClusterConfig = .ok () → env.newForConfig = .ok () →
        env.getConfigMap cr.ObjectMeta.Namespace cr.Spec.ConfigMap = .ok cm →
        (mapGet cm ConfigDistributionID = none ∨ mapGet cm ConfigCredentialID = none
          ∨ mapGet cm ConfigCredentialAccess = none) →
        o.cr = cr ∧ o.trace.updateCalls = [] ∧ o.trace.createCalls = []
          ∧ o.trace.getCalls = [] ∧ ∃ e2, o.result = .error e2)
    ∧ (∀ cm d ci ca e, env.inClusterConfig = .ok () → env.newForConfig = .ok () →
        env.getConfigMap cr.ObjectMeta.Namespace cr.Spec.ConfigMap = .ok cm →
        mapGet cm ConfigDistributionID = some d →
        mapGet cm ConfigCredentialID = some ci →
        mapGet cm ConfigCredentialAccess = some ca →
        env.createInvalidation ⟨ci, ConfigCredentialAccess, ""⟩
          ⟨d, env.now, 1, [cr.Spec.Path]⟩ = .error e →
        o.cr = cr ∧ o.trace.updateCalls = [] ∧ o.trace.getCalls = []
          ∧ o.result = .error (wrap "failed to create invalidation" e))
    ∧ (∀ cm d ci ca invId e, env.inClusterConfig = .ok () → env.newForConfig = .ok () →
        env.getConfigMap cr.ObjectMeta.Namespace cr.Spec.ConfigMap = .ok cm →
        mapGet cm ConfigDistributionID = some d →
        mapGet cm ConfigCredentialID = some ci →
        mapGet cm ConfigCredentialAccess = some ca →
        env.createInvalidation ⟨ci, ConfigCredentialAccess, ""⟩
          ⟨d, env.now, 1, [cr.Spec.Path]⟩ = .ok invId →
        env.getInvalidation ⟨ci, ConfigCredentialAccess, ""⟩ 0 ⟨d, invId⟩ = .error e →
        o.cr = cr ∧ o.trace.updateCalls = [] ∧ o.trace.getCalls.length = 1
          ∧ o.result = .error (wrap "failed to create invalidation" e)) := by
  obtain ⟨s1, s2, s3⟩ := invalidate_update_shape env fuel cr o h
  refine ⟨s1, s2, s3, ?_, ?_, ?_, ?_, ?_, ?_⟩
  · intro e he
    rw [inv_cc_err env fuel cr e he, Option.some.injEq] at h
    subst h
    exact ⟨rfl, rfl, _, rfl⟩
  · intro e h1 h2
    rw [inv_cs_err env fuel cr e h1 h2, Option.some.injEq] at h
    subst h
    exact ⟨rfl, rfl, _, rfl⟩
  · intro e h1 h2 h3
    rw [inv_cm_err env fuel cr e h1 h2 h3, Option.some.injEq] at h
    subst h
    exact ⟨rfl, rfl, _, rfl⟩
  · intro cm h1 h2 h3 hmiss
    cases hd : mapGet cm ConfigDistributionID with
    | none =>
      rw [inv_missing_dist env fuel cr cm h1 h2 h3 hd, Option.some.injEq] at h
      subst h
      exact ⟨rfl, rfl, rfl, rfl, _, rfl⟩
    | some d =>
      cases hi : mapGet cm ConfigCredentialID with
      | none =>
        rw [inv_missing_credid env fuel cr cm d h1 h2 h3 hd hi, Option.some.injEq] at h
        subst h
        exact ⟨rfl, rfl, rfl, rfl, _, rfl⟩
      | some ci =>
        have ha : mapGet cm ConfigCredentialAccess = none := by
          rcases hmiss with hm | hm | hm
          · rw [hd] at hm; exact Option.noConfusion hm
          · rw [hi] at hm; exact Option.noConfusion hm
          · exact hm
        rw [inv_missing_access env fuel cr cm d ci h1 h2 h3 hd hi ha,
          Option.some.injEq] at h
        subst h
        exact ⟨rfl, rfl, rfl, rfl, _, rfl⟩
  · intro cm d ci ca e h1 h2 h3 hd hi ha hce
    rw [inv_create_err env fuel cr cm d ci ca e h1 h2 h3 hd hi ha hce,
      Option.some.injEq] at h
    subst h
    exact ⟨rfl, rfl, rfl, rfl⟩
  · intro cm d ci ca invId e h1 h2 h3 hd hi ha hcr hg
    cases fuel with
    | zero =>
      rw [inv_fuel0_none env cr cm d ci ca invId h1 h2 h3 hd hi ha hcr] at h
      exact Option.noConfusion h
    | succ f =>
      rw [inv_poll0_err env f cr cm d ci ca invId e h1 h2 h3 hd hi ha hcr hg,
        Option.some.injEq] at h
      subst h
      exact ⟨rfl, rfl, rfl, rfl⟩

/-- Environment whose create-invalidation call fails. -/
def envCreateErr : Env :=
  mkEnv (.ok cmFull) (fun _ _ => .error "boom") (fun _ _ _ => .ok "Completed")
    (fun _ => .ok ())

/-- Outcome of running `invalidate` against `envCreateErr`. -/
def oCreateErr : InvOutcome :=
  ⟨.error "failed to create invalidation: boom", cr0,
   ⟨[("default", "cf-creds")],
    [(⟨"AKIA", ConfigCredentialAccess, ""⟩,
      ⟨"E123", "2018-06-01 10:00:00", 1, ["/images/star"]⟩)],
    [], []⟩⟩

/-- C4 witness: when the create call errors, the run ends with the
resource unchanged, no status write, and the poll loop never entered. -/
theorem c4_status_write_once_witness :
    oCreateErr.cr = cr0 ∧ oCreateErr.trace.updateCalls = []
    ∧ oCreateErr.trace.getCalls = []
    ∧ oCreateErr.result = .error (wrap "failed to create invalidation" "boom") :=
  (c4_status_write_once envCreateErr 1 cr0 oCreateErr
      (by decide)).2.2.2.2.2.2.2.1
    cmFull "E123" "AKIA" "topsecret" "boom" rfl rfl rfl (by decide) (by decide)
    (by decide) rfl

/-- Environment whose first status poll fails. -/
def envPollErr : Env :=
  mkEnv (.ok cmFull) (fun _ _ => .ok "I456") (fun _ _ _ => .error "boom")
    (fun _ => .ok ())

/-- Environment whose status update fails. -/
def envUpdateErr : Env :=
  mkEnv (.ok cmFull) (fun _ _ => .ok "I456") (fun _ _ _ => .ok "Completed")
    (fun _ => .error "ubo")

/-- C5 counterexample: the six stages do not each carry a distinct
stage-identifying message — a create-stage failure and a poll-stage
failure both surface the identical context string "failed to create
invalidation", and a status-update failure is propagated with no stage
context at all. -/
theorem c5_stage_messages_not_distinct :
    (invalidate envCreateErr 1 cr0).map (fun o => o.result)
        = some (.error "failed to create invalidation: boom")
    ∧ (invalidate envPollErr 1 cr0).map (fun o => o.result)
        = some (.error "failed to create invalidation: boom")
    ∧ (invalidate envUpdateErr 1 cr0).map (fun o => o.result)
        = some (.error "ubo") := by
  refine ⟨?_, ?_, ?_⟩ <;> decide

/-- If the stub answers non-terminal statuses for `n` polls from index `i`
and errors on poll `i + n`, the loop stops with that error wrapped in the
create-stage string after exactly `n + 1` queries, for any fuel above
`n`. -/
theorem pollLoop_err_at (env : Env) (creds : Creds) (input : GetInvalidationInput)
    (st : Nat → String) (e : String) :
    ∀ n i fuel, n < fuel →
      (∀ j, j < n → env.getInvalidation creds (i + j) input = .ok (st (i + j))) →
      (∀ j, j < n → st (i + j) ≠ StatusCompleted) →
      env.getInvalidation creds (i + n) input = .error e →
      ∃ calls, pollLoop env creds input fuel i
          = some (.error (wrap "failed to create invalidation" e), calls)
        ∧ calls.length = n + 1 := by
  intro n
  induction n with
  | zero =>
    intro i fuel hf _ _ herr
    cases fuel with
    | zero => omega
    | succ f =>
      simp only [Nat.add_zero] at herr
      refine ⟨[(creds, input)], ?_, rfl⟩
      unfold pollLoop
      rw [herr]
  | succ n ih =>
    intro i fuel hf hok hnc herr
    cases fuel with
    | zero => omega
    | succ f =>
      have h0 : env.getInvalidation creds i input = .ok (st i) := by
        have h := hok 0 (Nat.succ_pos n)
        simpa using h
      have h0nc : st i ≠ StatusCompleted := by
        have h := hnc 0 (Nat.succ_pos n)
        simpa using h
      have hok2 : ∀ j, j < n →
          env.getInvalidation creds (i + 1 + j) input = .ok (st (i + 1 + j)) := by
        intro j hj
        have h := hok (j + 1) (by omega)
        have he : i + (j + 1) = i + 1 + j := by omega
        rwa [he] at h
      have hnc2 : ∀ j, j < n → st (i + 1 + j) ≠ StatusCompleted := by
        intro j hj
        have h := hnc (j + 1) (by omega)
        have he : i + (j + 1) = i + 1 + j := by omega
        rwa [he] at h
      have herr2 : env.getInvalidation creds (i + 1 + n) input = .error e := by
        have he : i + 1 + n = i + (n + 1) := by omega
        rw [he]
        exact herr
      obtain ⟨calls, hp, hl⟩ := ih (i + 1) f (by omega) hok2 hnc2 herr2
      refine ⟨(creds, input) :: calls, ?_, by simp [hl]⟩
      unfold pollLoop
      rw [h0]
      simp only [beq_iff_eq, h0nc, if_false, hp]

/-- Outcome when the poll loop exits with an error result: the loop's
error is the workflow's result, with no status update. -/
theorem inv_poll_err_result (env : Env) (fuel : Nat) (cr : Invalidation)
    (cm : ConfigMap) (d ci ca invId e2 : String)
    (calls : List (Creds × GetInvalidationInput))
    (h1 : env.inClusterConfig = .ok ()) (h2 : env.newForConfig = .ok ())
    (h3 : env.getConfigMap cr.ObjectMeta.Namespace cr.Spec.ConfigMap = .ok cm)
    (hd : mapGet cm ConfigDistributionID = some d)
    (hi : mapGet cm ConfigCredentialID = some ci)
    (ha : mapGet cm ConfigCredentialAccess = some ca)
    (hcr : env.createInvalidation ⟨ci, ConfigCredentialAccess, ""⟩
        ⟨d, env.now, 1, [cr.Spec.Path]⟩ = .ok invId)
    (hp : pollLoop env ⟨ci, ConfigCredentialAccess, ""⟩ ⟨d, invId⟩ fuel 0
        = some (.error e2, calls)) :
    invalidate env fuel cr =
      some ⟨.error e2, cr,
        ⟨[(cr.ObjectMeta.Namespace, cr.Spec.ConfigMap)],
         [(⟨ci, ConfigCredentialAccess, ""⟩, ⟨d, env.now, 1, [cr.Spec.Path]⟩)],
         calls, []⟩⟩ := by
  simp [invalidate, h1, h2, h3, hd, hi, ha, hcr, hp]

/-- C5 amended: every failure of the cluster-config, clientset,
ConfigMap-load, create, and poll stages (the last at any poll index) is
wrapped with the fixed context string of its code path, and a missing
required key yields the fixed message naming that key — but the poll
stage reuses the create stage's string "failed to create invalidation",
and a status-update failure is returned unwrapped; Handle wraps any
workflow error with "failed to process invalidation request". -/
theorem c5_stage_contexts_amended (env : Env) (fuel : Nat) (cr : Invalidation) :
    (∀ e, env.inClusterConfig = .error e →
      (invalidate env fuel cr).map (fun o => o.result)
        = some (.error (wrap "failed to get Kubernetes config" e)))
    ∧ (∀ e, env.inClusterConfig = .ok () → env.newForConfig = .error e →
      (invalidate env fuel cr).map (fun o => o.result)
        = some (.error (wrap "failed to get Kubernetes clientset" e)))
    ∧ (∀ e, env.inClusterConfig = .ok () → env.newForConfig = .ok () →
      env.getConfigMap cr.ObjectMeta.Namespace cr.Spec.ConfigMap = .error e →
      (invalidate env fuel cr).map (fun o => o.result)
        = some (.error (wrap "failed to load ConfigMap" e)))
    ∧ (∀ cm, env.inClusterConfig = .ok () → env.newForConfig = .ok () →
      env.getConfigMap cr.ObjectMeta.Namespace cr.Spec.ConfigMap = .ok cm →
      mapGet cm ConfigDistributionID = none →
      (invalidate env fuel cr).map (fun o => o.result)
        = some (.error "distribution not found, skipping"))
    ∧ (∀ cm d, env.inClusterConfig = .ok () → env.newForConfig = .ok () →
      env.getConfigMap cr.ObjectMeta.Namespace cr.Spec.ConfigMap = .ok cm →
      mapGet cm ConfigDistributionID = some d →
      mapGet cm ConfigCredentialID = none →
      (invalidate env fuel cr).map (fun o => o.result)
        = some (.error "credential not found: id, skipping"))
    ∧ (∀ cm d ci, env.inClusterConfig = .ok () → env.newForConfig = .ok () →
      env.getConfigMap cr.ObjectMeta.Namespace cr.Spec.ConfigMap = .ok cm →
      mapGet cm ConfigDistributionID = some d →
      mapGet cm ConfigCredentialID = some ci →
      mapGet cm ConfigCredentialAccess = none →
      (invalidate env fuel cr).map (fun o => o.result)
        = some (.error "credential not found: access, skipping"))
    ∧ (∀ cm d ci ca e, env.inClusterConfig = .ok () → env.newForConfig = .ok () →
      env.getConfigMap cr.ObjectMeta.Namespace cr.Spec.ConfigMap = .ok cm →
      mapGet cm ConfigDistributionID = some d →
      mapGet cm ConfigCredentialID = some ci →
      mapGet cm ConfigCredentialAccess = some ca →
      env.createInvalidation ⟨ci, ConfigCredentialAccess, ""⟩
        ⟨d, env.now, 1, [cr.Spec.Path]⟩ = .error e →
      (invalidate env fuel cr).map (fun o => o.result)
        = some (.error (wrap "failed to create invalidation" e)))
    ∧ (∀ cm d ci ca invId e N, ∀ st : Nat → String, N < fuel →
      env.inClusterConfig = .ok () → env.newForConfig = .ok () →
      env.getConfigMap cr.ObjectMeta.Namespace cr.Spec.ConfigMap = .ok cm →
      mapGet cm ConfigDistributionID = some d →
      mapGet cm ConfigCredentialID = some ci →
      mapGet cm ConfigCredentialAccess = some ca →
      env.createInvalidation ⟨ci, ConfigCredentialAccess, ""⟩
        ⟨d, env.now, 1, [cr.Spec.Path]⟩ = .ok invId →
      (∀ j, j < N → env.getInvalidation ⟨ci, ConfigCredentialAccess, ""⟩ j
          ⟨d, invId⟩ = .ok (st j)) →
      (∀ j, j < N → st j ≠ StatusCompleted) →
      env.getInvalidation ⟨ci, ConfigCredentialAccess, ""⟩ N ⟨d, invId⟩ = .error e →
      (invalidate env fuel cr).map (fun o => o.result)
        = some (.error (wrap "failed to create invalidation" e)))
    ∧ (∀ cm d ci ca invId e f, fuel = f + 1 →
      env.inClusterConfig = .ok () → env.newForConfig = .ok () →
      env.getConfigMap cr.ObjectMeta.Namespace cr.Spec.ConfigMap = .ok cm →
      mapGet cm ConfigDistributionID = some d →
      mapGet cm ConfigCredentialID = some ci →
      mapGet cm ConfigCredentialAccess = some ca →
      env.createInvalidation ⟨ci, ConfigCredentialAccess, ""⟩
        ⟨d, env.now, 1, [cr.Spec.Path]⟩ = .ok invId →
      env.getInvalidation ⟨ci, ConfigCredentialAccess, ""⟩ 0 ⟨d, invId⟩ =
        .ok StatusCompleted →
      env.update { cr with Status := ⟨invId, StatusCompleted⟩ } = .error e →
      (invalidate env fuel cr).map (fun o => o.result) = some (.error e))
    ∧ (∀ o e, invalidate env fuel cr = some o → o.result = .error e →
      Handle env fuel ⟨.invalidation cr⟩
        = some (.error (wrap "failed to process invalidation request" e),
            .invalidation o.cr, o.trace)) := by
  refine ⟨?_, ?_, ?_, ?_, ?_, ?_, ?_, ?_, ?_, ?_⟩
  · intro e he
    rw [inv_cc_err env fuel cr e he]
    rfl
  · intro e h1 h2
    rw [inv_cs_err env fuel cr e h1 h2]
    rfl
  · intro e h1 h2 h3
    rw [inv_cm_err env fuel cr e h1 h2 h3]
    rfl
  · intro cm h1 h2 h3 hd
    rw [inv_missing_dist env fuel cr cm h1 h2 h3 hd]
    rfl
  · intro cm d h1 h2 h3 hd hi
    rw [inv_missing_credid env fuel cr cm d h1 h2 h3 hd hi]
    rfl
  · intro cm d ci h1 h2 h3 hd hi ha
    rw [inv_missing_access env fuel cr cm d ci h1 h2 h3 hd hi ha]
    rfl
  · intro cm d ci ca e h1 h2 h3 hd hi ha hce
    rw [inv_create_err env fuel cr cm d ci ca e h1 h2 h3 hd hi ha hce]
    rfl
  · intro cm d ci ca invId e N st hN h1 h2 h3 hd hi ha hcr hok hnc herr
    obtain ⟨calls, hp, _⟩ := pollLoop_err_at env ⟨ci, ConfigCredentialAccess, ""⟩
        ⟨d, invId⟩ st e N 0 fuel hN
        (fun j hj => by simpa using hok j hj)
        (fun j hj => by simpa using hnc j hj)
        (by simpa using herr)
    rw [inv_poll_err_result env fuel cr cm d ci ca invId
        (wrap "failed to create invalidation" e) calls h1 h2 h3 hd hi ha hcr hp]
    rfl
  · intro cm d ci ca invId e f hf h1 h2 h3 hd hi ha hcr hg hu
    subst hf
    rw [inv_update_err env f cr cm d ci ca invId e h1 h2 h3 hd hi ha hcr hg hu]
    rfl
  · intro o e ho hoe
    simp only [Handle, ho, hoe]

/-- CDN stub whose second poll (index 1) errors after one "InProgress". -/
def envPollErrLate : Env :=
  mkEnv (.ok cmFull) (fun _ _ => .ok "I456")
    (fun _ j _ => if j < 1 then .ok "InProgress" else .error "boom")
    (fun _ => .ok ())

/-- C5 witness: a status-update failure surfaces the bare error "ubo"
with no stage context, and a poll failure at index 1 (not the first
poll) still surfaces the create-stage context string. -/
theorem c5_stage_contexts_amended_witness :
    (invalidate envUpdateErr (0 + 1) cr0).map (fun o => o.result)
      = some (.error "ubo")
    ∧ (invalidate envPollErrLate 2 cr0).map (fun o => o.result)
      = some (.error "failed to create invalidation: boom") :=
  ⟨(c5_stage_contexts_amended envUpdateErr (0 + 1) cr0).2.2.2.2.2.2.2.2.1
    cmFull "E123" "AKIA" "topsecret" "I456" "ubo" 0 rfl rfl rfl rfl
    (by decide) (by decide) (by decide) rfl rfl rfl,
   (c5_stage_contexts_amended envPollErrLate 2 cr0).2.2.2.2.2.2.2.1
    cmFull "E123" "AKIA" "topsecret" "I456" "boom" 1 (fun _ => "InProgress")
    (by decide) rfl rfl rfl (by decide) (by decide) (by decide) rfl
    (fun j hj => by simp [envPollErrLate, mkEnv, Nat.lt_one_iff.mp hj])
    (fun j _ => by show "InProgress" ≠ StatusCompleted; decide) rfl⟩

/-- C7: every run that reaches the create step submits exactly one
create-invalidation call, with exactly one path equal to the resource's
spec path, quantity 1, the distribution id extracted from the ConfigMap,
and a caller-reference equal to the current wall-clock timestamp string. -/
theorem c7_create_call_fields (env : Env) (fuel : Nat) (cr : Invalidation)
    (cm : ConfigMap) (d ci ca : String)
    (h1 : env.inClusterConfig = .ok ()) (h2 : env.newForConfig = .ok ())
    (h3 : env.getConfigMap cr.ObjectMeta.Namespace cr.Spec.ConfigMap = .ok cm)
    (hd : mapGet cm ConfigDistributionID = some d)
    (hi : mapGet cm ConfigCredentialID = some ci)
    (ha : mapGet cm ConfigCredentialAccess = some ca)
    (o : InvOutcome) (ho : invalidate env fuel cr = some o) :
    o.trace.createCalls.map (fun c => c.2) = [⟨d, env.now, 1, [cr.Spec.Path]⟩] := by
  simp only [invalidate, h1, h2, h3, hd, hi, ha, Option.isNone_some,
    Bool.false_eq_true, if_false, Option.getD_some] at ho
  cases hcr : env.createInvalidation ⟨ci, ConfigCredentialAccess, ""⟩
      ⟨d, env.now, 1, [cr.Spec.Path]⟩ with
  | error e =>
    simp only [hcr, Option.some.injEq] at ho
    subst ho
    rfl
  | ok invId =>
    simp only [hcr] at ho
    cases hp : pollLoop env ⟨ci, ConfigCredentialAccess, ""⟩ ⟨d, invId⟩ fuel 0 with
    | none =>
      simp only [hp] at ho
      exact Option.noConfusion ho
    | some rc =>
      obtain ⟨r, getCalls⟩ := rc
      simp only [hp] at ho
      cases r with
      | error e =>
        simp only [Option.some.injEq] at ho
        subst ho
        rfl
      | ok u3 =>
        cases hu : env.update { cr with Status := ⟨invId, StatusCompleted⟩ } with
        | error e =>
          simp only [hu, Option.some.injEq] at ho
          subst ho
          rfl
        | ok u4 =>
          simp only [hu, Option.some.injEq] at ho
          subst ho
          rfl

/-- Outcome of `invalidate envHappy 1 cr0`: completion at the first poll. -/
def oHappy : InvOutcome :=
  ⟨.ok (), { cr0 with Status := ⟨"I456", StatusCompleted⟩ },
   ⟨[("default", "cf-creds")],
    [(⟨"AKIA", ConfigCredentialAccess, ""⟩,
      ⟨"E123", "2018-06-01 10:00:00", 1, ["/images/star"]⟩)],
    [(⟨"AKIA", ConfigCredentialAccess, ""⟩, ⟨"E123", "I456"⟩)],
    [{ cr0 with Status := ⟨"I456", StatusCompleted⟩ }]⟩⟩

/-- C7 witness: the happy-path run submits one create call for the single
path "/images/star" with quantity 1 against distribution "E123". -/
theorem c7_create_call_fields_witness :
    oHappy.trace.createCalls.map (fun c => c.2)
      = [⟨"E123", "2018-06-01 10:00:00", 1, ["/images/star"]⟩] :=
  c7_create_call_fields envHappy 1 cr0 cmFull "E123" "AKIA" "topsecret"
    rfl rfl rfl (by decide) (by decide) (by decide) oHappy (by decide)

/-- C10: on every terminating execution path the workflow leaves the
resource's Spec and ObjectMeta exactly as it found them — Status is the
only field it ever mutates. -/
theorem c10_only_status_mutated (env : Env) (fuel : Nat) (cr : Invalidation)
    (o : InvOutcome) (h : invalidate env fuel cr = some o) :
    o.cr.Spec = cr.Spec ∧ o.cr.ObjectMeta = cr.ObjectMeta := by
  unfold invalidate at h
  repeat' split at h
  all_goals
    try (simp only [Option.some.injEq] at h; subst h; exact ⟨rfl, rfl⟩)
  all_goals
    rename_i cmv heqcm hd2 hi2 ha2
  all_goals
    cases hcr : env.createInvalidation
        ⟨(mapGet cmv ConfigCredentialID).getD "", ConfigCredentialAccess, ""⟩
        ⟨(mapGet cmv ConfigDistributionID).getD "", env.now, 1, [cr.Spec.Path]⟩ with
    | error e =>
      simp only [hcr, Option.some.injEq] at h
      subst h
      exact ⟨rfl, rfl⟩
    | ok invId =>
      simp only [hcr] at h
      cases hp : pollLoop env
          ⟨(mapGet cmv ConfigCredentialID).getD "", ConfigCredentialAccess, ""⟩
          ⟨(mapGet cmv ConfigDistributionID).getD "", invId⟩ fuel 0 with
      | none =>
        simp only [hp] at h
        exact Option.noConfusion h
      | some rc =>
        obtain ⟨r, getCalls⟩ := rc
        simp only [hp] at h
        cases r with
        | error e =>
          simp only [Option.some.injEq] at h
          subst h
          exact ⟨rfl, rfl⟩
        | ok u3 =>
          cases hu : env.update { cr with Status := ⟨invId, StatusCompleted⟩ } with
          | error e =>
            simp only [hu, Option.some.injEq] at h
            subst h
            exact ⟨rfl, rfl⟩
          | ok u4 =>
            simp only [hu, Option.some.injEq] at h
            subst h
            exact ⟨rfl, rfl⟩

/-- C10 witness: the happy-path run preserves Spec and ObjectMeta. -/
theorem c10_only_status_mutated_witness :
    oHappy.cr.Spec = cr0.Spec ∧ oHappy.cr.ObjectMeta = cr0.ObjectMeta :=
  c10_only_status_mutated envHappy 1 cr0 oHappy (by decide)
